import Mathlib

/-!
Shallow embedding of the HD44780 LCD driver (src/src/lib.rs) in Lean 4.

The controller `HD44780` owns a bus (the `DataBus` trait of src/src/bus/mod.rs)
and two pieces of configuration state (`entry_mode`, `display_mode`).  The bus
trait has a single operation `write(byte, is_data)` which may fail with a pin
error; we embed it as an explicit state (`BusState`) carrying a fault schedule
`ok : Nat -> Bool` (whether the k-th write attempt succeeds) and an ordered
event trace that records every successful bus write and every timer delay
(`Timer::after(Duration::from_millis/us ..)` in the source).

The option-byte encoders (`EntryMode::as_byte`, `DisplayMode::as_byte`, files
entry_mode.rs / display_mode.rs) are not under src/; the controller code only
calls them.  All theorems are therefore parameterised over arbitrary encoding
functions `entryEnc : EntryMode -> Nat` and `dispEnc : DisplayMode -> Nat`, so
every statement holds for whatever encoding the missing files implement.
-/

namespace HD

/-- One observable event on the bus/timer: a successful bus write (byte plus
register-select flag, `is_data = true` for the data register), or a timer
delay in milliseconds (`Duration::from_millis`) or microseconds
(`Duration::from_us`). -/
inductive Event : Type where
  | write (byte : Nat) (is_data : Bool) : Event
  | delayMs (n : Nat) : Event
  | delayUs (n : Nat) : Event
  deriving DecidableEq, Repr

/-- The abstract `DataBus` (src/src/bus/mod.rs): a fault schedule `ok`
(whether the k-th write attempt succeeds; pin failures are the only failures,
spec section 7), the number of write attempts so far, and the event trace. -/
structure BusState : Type where
  ok : Nat → Bool
  count : Nat
  events : List Event

/-- Modelled from the spec: the error type of error.rs is not under src/;
spec section 7 says the single surfaced error kind is a pin failure. -/
inductive Error : Type where
  | PinFailure : Error
  deriving DecidableEq, Repr

/-- `DataBus::write(byte, is_data)`: consult the fault schedule at the current
attempt index; on success append the write event to the trace. -/
def busWrite (b : BusState) (byte : Nat) (is_data : Bool) : Bool × BusState :=
  if b.ok b.count then
    (true, { b with count := b.count + 1,
                    events := b.events ++ [Event.write byte is_data] })
  else
    (false, { b with count := b.count + 1 })

/-- Append one event to the trace (timer delays always run to completion). -/
def addEvent (b : BusState) (e : Event) : BusState :=
  { b with events := b.events ++ [e] }

/-- `Timer::after(Duration::from_millis(n))`. -/
def delayMs (b : BusState) (n : Nat) : BusState :=
  addEvent b (Event.delayMs n)

/-- `Timer::after(Duration::from_us(n))`. -/
def delayUs (b : BusState) (n : Nat) : BusState :=
  addEvent b (Event.delayUs n)

/-- `CursorMode` of entry_mode.rs (cursor-advance direction; the variants
`Left`/`Right` are the ones lib.rs documents for `set_cursor_mode`). -/
inductive CursorMode : Type where
  | Left : CursorMode
  | Right : CursorMode
  deriving DecidableEq, Repr

/-- `EntryMode` of entry_mode.rs: per the spec's data model, an autoscroll
(shift) flag and a cursor-advance direction.  lib.rs assigns
`entry_mode.shift_mode` (from a `bool`) and `entry_mode.cursor_mode`. -/
structure EntryMode : Type where
  shift_mode : Bool
  cursor_mode : CursorMode
  deriving DecidableEq, Repr

/-- `Display` (lib.rs): whether the display is on. -/
inductive Display : Type where
  | On : Display
  | Off : Display
  deriving DecidableEq, Repr

/-- `Cursor` (lib.rs): whether the cursor is visible. -/
inductive Cursor : Type where
  | Visible : Cursor
  | Invisible : Cursor
  deriving DecidableEq, Repr

/-- `CursorBlink` (lib.rs): whether the cursor blinks. -/
inductive CursorBlink : Type where
  | On : CursorBlink
  | Off : CursorBlink
  deriving DecidableEq, Repr

/-- `Direction` (lib.rs): argument of `shift_cursor` / `shift_display`. -/
inductive Direction : Type where
  | Left : Direction
  | Right : Direction
  deriving DecidableEq, Repr

/-- `DisplayMode` of display_mode.rs: per the spec's data model and the field
assignments in lib.rs, display on/off, cursor visibility, cursor blink. -/
structure DisplayMode : Type where
  display : Display
  cursor_visibility : Cursor
  cursor_blink : CursorBlink
  deriving DecidableEq, Repr

/-- The controller state `HD44780` (lib.rs): its configuration fields.  The
bus is carried separately as a `BusState`. -/
structure HD44780 : Type where
  entry_mode : EntryMode
  display_mode : DisplayMode
  deriving DecidableEq, Repr

/-- Full machine state: controller configuration plus bus. -/
abbrev St : Type := HD44780 × BusState

/-- Result of a fallible driver operation (`Result<()>` in the source).
The pair carries the post-state: Rust's `&mut self` keeps mutations made
before an early `?` return, so the state is returned alongside the error. -/
abbrev Res : Type := Except Error Unit

/-- `write_command(cmd)` (lib.rs lines 318-324): `self.bus.write(cmd, false)?`
then a 100 us settle delay. -/
def write_command (st : St) (cmd : Nat) : Res × St :=
  match busWrite st.2 cmd false with
  | (true, b) => (Except.ok (), st.1, delayUs b 100)
  | (false, b) => (Except.error Error.PinFailure, st.1, b)

/-- `write_byte(data)` (lib.rs lines 454-461): `self.bus.write(data, true)?`
then a 100 us settle delay. -/
def write_byte (st : St) (data : Nat) : Res × St :=
  match busWrite st.2 data true with
  | (true, b) => (Except.ok (), st.1, delayUs b 100)
  | (false, b) => (Except.error Error.PinFailure, st.1, b)

/-- `write_char(data)` (lib.rs lines 314-316): `self.write_byte(data as u8)`;
the Rust `as u8` cast keeps the low 8 bits of the code point. -/
def write_char (st : St) (data : Char) : Res × St :=
  write_byte st (data.toNat % 256)

/-- `write_bytes(string)` (lib.rs lines 433-438): write each byte in order
with `write_byte`, aborting the loop on the first failure via `?`. -/
def write_bytes (st : St) : List Nat → Res × St
  | [] => (Except.ok (), st)
  | b :: rest =>
    match write_byte st b with
    | (Except.ok _, st') => write_bytes st' rest
    | (e, st') => (e, st')

/-- UTF-8 encoding of one character, as Rust's `str::as_bytes` exposes it. -/
def utf8Bytes (c : Char) : List Nat :=
  let n := c.toNat
  if n < 0x80 then [n]
  else if n < 0x800 then
    [0xC0 ||| (n >>> 6), 0x80 ||| (n &&& 0x3F)]
  else if n < 0x10000 then
    [0xE0 ||| (n >>> 12), 0x80 ||| ((n >>> 6) &&& 0x3F), 0x80 ||| (n &&& 0x3F)]
  else
    [0xF0 ||| (n >>> 18), 0x80 ||| ((n >>> 12) &&& 0x3F),
     0x80 ||| ((n >>> 6) &&& 0x3F), 0x80 ||| (n &&& 0x3F)]

/-- The UTF-8 byte sequence of a string (`string.as_bytes()` in Rust). -/
def strBytes (s : String) : List Nat :=
  s.data.foldr (fun c acc => utf8Bytes c ++ acc) []

/-- `write_str(string)` (lib.rs lines 423-425):
`self.write_bytes(string.as_bytes())`. -/
def write_str (st : St) (s : String) : Res × St :=
  write_bytes st (strBytes s)

/-- `reset()` (lib.rs lines 158-162): `write_command(0b00000010)`. -/
def reset (st : St) : Res × St :=
  write_command st 0b00000010

/-- `clear()` (lib.rs lines 184-188): `write_command(0b00000001)`. -/
def clear (st : St) : Res × St :=
  write_command st 0b00000001

/-- `set_display_mode(display_mode)` (lib.rs lines 169-177): store the whole
structure, then send its encoding as a command.  `dispEnc` stands for the
`DisplayMode::as_byte` encoder (display_mode.rs, not under src/). -/
def set_display_mode (dispEnc : DisplayMode → Nat) (st : St)
    (display_mode : DisplayMode) : Res × St :=
  let hd : HD44780 := { st.1 with display_mode := display_mode }
  write_command (hd, st.2) (dispEnc hd.display_mode)

/-- `set_autoscroll(enabled)` (lib.rs lines 196-204): set
`entry_mode.shift_mode`, then send the encoding of the whole entry mode.
`entryEnc` stands for the `EntryMode::as_byte` encoder (entry_mode.rs, not
under src/). -/
def set_autoscroll (entryEnc : EntryMode → Nat) (st : St)
    (enabled : Bool) : Res × St :=
  let hd : HD44780 :=
    { st.1 with entry_mode := { st.1.entry_mode with shift_mode := enabled } }
  write_command (hd, st.2) (entryEnc hd.entry_mode)

/-- `set_cursor_visibility(visibility)` (lib.rs lines 207-215): set
`display_mode.cursor_visibility`, then send the whole display-mode byte. -/
def set_cursor_visibility (dispEnc : DisplayMode → Nat) (st : St)
    (visibility : Cursor) : Res × St :=
  let hd : HD44780 :=
    { st.1 with display_mode :=
        { st.1.display_mode with cursor_visibility := visibility } }
  write_command (hd, st.2) (dispEnc hd.display_mode)

/-- `set_display(display)` (lib.rs lines 218-226): set
`display_mode.display`, then send the whole display-mode byte. -/
def set_display (dispEnc : DisplayMode → Nat) (st : St)
    (display : Display) : Res × St :=
  let hd : HD44780 :=
    { st.1 with display_mode := { st.1.display_mode with display := display } }
  write_command (hd, st.2) (dispEnc hd.display_mode)

/-- `set_cursor_blink(blink)` (lib.rs lines 229-237): set
`display_mode.cursor_blink`, then send the whole display-mode byte. -/
def set_cursor_blink (dispEnc : DisplayMode → Nat) (st : St)
    (blink : CursorBlink) : Res × St :=
  let hd : HD44780 :=
    { st.1 with display_mode :=
        { st.1.display_mode with cursor_blink := blink } }
  write_command (hd, st.2) (dispEnc hd.display_mode)

/-- `set_cursor_mode(mode)` (lib.rs lines 248-256): set
`entry_mode.cursor_mode`, then send the whole entry-mode byte. -/
def set_cursor_mode (entryEnc : EntryMode → Nat) (st : St)
    (mode : CursorMode) : Res × St :=
  let hd : HD44780 :=
    { st.1 with entry_mode := { st.1.entry_mode with cursor_mode := mode } }
  write_command (hd, st.2) (entryEnc hd.entry_mode)

/-- `set_cursor_pos(position)` (lib.rs lines 264-270): mask the position to
its low 7 bits and OR with the set-DDRAM-address opcode bit. -/
def set_cursor_pos (st : St) (position : Nat) : Res × St :=
  let lower_7_bits := 0b01111111 &&& position
  write_command st (0b10000000 ||| lower_7_bits)

/-- `shift_cursor(dir)` (lib.rs lines 278-287): `0b00010000 | bits | bits`
with `bits = 0` for left, `0b00000100` for right. -/
def shift_cursor (st : St) (dir : Direction) : Res × St :=
  let bits := match dir with
    | Direction.Left => 0b00000000
    | Direction.Right => 0b00000100
  write_command st (0b00010000 ||| bits ||| bits)

/-- `shift_display(dir)` (lib.rs lines 295-304): `0b00011000 | bits`
with `bits = 0` for left, `0b00000100` for right. -/
def shift_display (st : St) (dir : Direction) : Res × St :=
  let bits := match dir with
    | Direction.Left => 0b00000000
    | Direction.Right => 0b00000100
  write_command st (0b00011000 ||| bits)

/-- One initialization step: a raw `bus.write(byte, false)` aborted by `?` on
failure, followed (on success only) by the given delay event. -/
def initStep (b : BusState) (byte : Nat) (d : Event) : Bool × BusState :=
  match busWrite b byte false with
  | (true, b') => (true, addEvent b' d)
  | (false, b') => (false, b')

/-- Run a sequence of initialization steps in order, stopping at the first
failed bus write. -/
def runInitSteps (b : BusState) : List (Nat × Event) → Bool × BusState
  | [] => (true, b)
  | (byte, d) :: rest =>
    match initStep b byte d with
    | (true, b') => runInitSteps b' rest
    | (false, b') => (false, b')

/-- `init_8bit()` (lib.rs lines 374-414): a 15 ms power-on wait, then the raw
command bytes 0x30 (followed by a 5 ms wait), 0x38, 0x0E, 0x01, 0b0000111
and the encoded entry-mode byte, each of the latter followed by a 100 us
wait. -/
def init_8bit (entryEnc : EntryMode → Nat) (st : St) : Res × St :=
  let b0 := delayMs st.2 15
  match runInitSteps b0
      [(0b00110000, Event.delayMs 5),
       (0b00111000, Event.delayUs 100),
       (0b00001110, Event.delayUs 100),
       (0b00000001, Event.delayUs 100),
       (0b0000111, Event.delayUs 100),
       (entryEnc st.1.entry_mode, Event.delayUs 100)] with
  | (true, b) => (Except.ok (), st.1, b)
  | (false, b) => (Except.error Error.PinFailure, st.1, b)

/-- `init_4bit()` (lib.rs lines 326-371): a 15 ms power-on wait, then the raw
command bytes 0x33 (followed by a 5 ms wait), 0x32, 0x28, 0x0E, 0x01, the
encoded entry-mode byte and 0x80, each of the latter followed by a 100 us
wait. -/
def init_4bit (entryEnc : EntryMode → Nat) (st : St) : Res × St :=
  let b0 := delayMs st.2 15
  match runInitSteps b0
      [(0x33, Event.delayMs 5),
       (0x32, Event.delayUs 100),
       (0x28, Event.delayUs 100),
       (0x0E, Event.delayUs 100),
       (0x01, Event.delayUs 100),
       (entryEnc st.1.entry_mode, Event.delayUs 100),
       (0x80, Event.delayUs 100)] with
  | (true, b) => (Except.ok (), st.1, b)
  | (false, b) => (Except.error Error.PinFailure, st.1, b)

/-- The bus writes recorded in a trace, in order (projecting away delays). -/
def writesOf : List Event → List (Nat × Bool)
  | [] => []
  | Event.write byte is_data :: rest => (byte, is_data) :: writesOf rest
  | Event.delayMs _ :: rest => writesOf rest
  | Event.delayUs _ :: rest => writesOf rest

/-- The events a successful `write_bytes` appends: each byte as a
data-register write followed by the 100 us settle delay. -/
def dataEvents (bs : List Nat) : List Event :=
  bs.foldr (fun b acc => Event.write b true :: Event.delayUs 100 :: acc) []

/-- `write_command` never touches the controller's configuration state. -/
theorem write_command_config (st : St) (cmd : Nat) :
    (write_command st cmd).2.1 = st.1 := by
  by_cases hc : st.2.ok st.2.count = true <;>
    simp [write_command, busWrite, hc]

/-- `write_byte` never touches the controller's configuration state. -/
theorem write_byte_config (st : St) (data : Nat) :
    (write_byte st data).2.1 = st.1 := by
  by_cases hc : st.2.ok st.2.count = true <;>
    simp [write_byte, busWrite, hc]

/-- `write_bytes` never touches the controller's configuration state. -/
theorem write_bytes_config (bs : List Nat) (st : St) :
    (write_bytes st bs).2.1 = st.1 := by
  induction bs generalizing st with
  | nil => simp [write_bytes]
  | cons b rest ih =>
    by_cases hc : st.2.ok st.2.count = true <;>
      simp [write_bytes, write_byte, busWrite, hc, ih]

/-- On a success schedule, `write_bytes` succeeds, appends exactly one
data-register write (plus settle delay) per input byte in input order, and
makes one write attempt per byte. -/
theorem write_bytes_ok_trace (bs : List Nat) (st : St)
    (h : ∀ i, i < bs.length → st.2.ok (st.2.count + i) = true) :
    (write_bytes st bs).1 = Except.ok () ∧
    (write_bytes st bs).2.2.events = st.2.events ++ dataEvents bs ∧
    (write_bytes st bs).2.2.count = st.2.count + bs.length ∧
    (write_bytes st bs).2.2.ok = st.2.ok := by
  induction bs generalizing st with
  | nil => simp [write_bytes, dataEvents]
  | cons b rest ih =>
    have h0 : st.2.ok st.2.count = true := by
      have := h 0 (Nat.succ_pos _)
      simpa using this
    have hrest := ih (st.1,
      { st.2 with count := st.2.count + 1,
                  events := st.2.events ++
                    [Event.write b true, Event.delayUs 100] })
      (fun i hi => by
        have := h (i + 1) (Nat.succ_lt_succ hi)
        simpa [Nat.add_assoc, Nat.add_comm 1 i] using this)
    simp only [write_bytes, write_byte, busWrite, h0, if_pos, delayUs,
      addEvent, List.append_assoc, List.singleton_append] at hrest ⊢
    refine ⟨hrest.1, ?_, ?_, hrest.2.2.2⟩
    · rw [hrest.2.1]
      simp [dataEvents]
    · rw [hrest.2.2.1]
      simp [List.length_cons, Nat.add_assoc, Nat.add_comm 1]

/-- If the first pin failure happens at the j-th byte of `write_bytes`, the
call returns the failure and exactly the first j bytes were transmitted. -/
theorem write_bytes_fail_trace (bs : List Nat) (st : St) (j : Nat)
    (hj : j < bs.length)
    (hok : ∀ i, i < j → st.2.ok (st.2.count + i) = true)
    (hfail : st.2.ok (st.2.count + j) = false) :
    (write_bytes st bs).1 = Except.error Error.PinFailure ∧
    (write_bytes st bs).2.2.events
      = st.2.events ++ dataEvents (List.take j bs) := by
  induction bs generalizing st j with
  | nil => exact absurd hj (Nat.not_lt_zero _)
  | cons b rest ih =>
    cases j with
    | zero =>
      have h0 : st.2.ok st.2.count = false := by simpa using hfail
      simp [write_bytes, write_byte, busWrite, h0, dataEvents]
    | succ j' =>
      have h0 : st.2.ok st.2.count = true := by
        have := hok 0 (Nat.succ_pos _)
        simpa using this
      have hrec := ih (st.1,
        { st.2 with count := st.2.count + 1,
                    events := st.2.events ++
                      [Event.write b true, Event.delayUs 100] }) j'
        (Nat.lt_of_succ_lt_succ hj)
        (fun i hi => by
          have := hok (i + 1) (Nat.succ_lt_succ hi)
          simpa [Nat.add_assoc, Nat.add_comm 1 i] using this)
        (by
          have : st.2.count + (j' + 1) = st.2.count + 1 + j' := by omega
          simpa [this] using hfail)
      simp only [write_bytes, write_byte, busWrite, h0, if_pos, delayUs,
        addEvent, List.append_assoc, List.singleton_append] at hrec ⊢
      refine ⟨hrec.1, ?_⟩
      rw [hrec.2]
      simp [dataEvents]

/-- C5: for every u8 position p, `set_cursor_pos p` succeeds and sends as a
command exactly the byte `0b1000_0000 ||| (p &&& 0b0111_1111)` (followed by
the settle delay); the top bit of p is silently dropped and never causes an
error, and in particular p = 200 and p = 72 behave identically. -/
theorem set_cursor_pos_spec (st : St) (p : Nat) (hp : p < 256)
    (h : st.2.ok st.2.count = true) :
    (set_cursor_pos st p).1 = Except.ok () ∧
    (set_cursor_pos st p).2.2.events
      = st.2.events ++ [Event.write (0b10000000 ||| (p &&& 0b01111111)) false,
                        Event.delayUs 100] ∧
    set_cursor_pos st 200 = set_cursor_pos st 72 := by
  refine ⟨?_, ?_, ?_⟩ <;>
    simp [set_cursor_pos, write_command, busWrite, delayUs, addEvent, h,
      Nat.and_comm]
  decide

/-- C5 witness: the theorem applied at p = 200 on an all-success bus. -/
theorem set_cursor_pos_spec_witness :
    (set_cursor_pos (⟨⟨false, CursorMode.Right⟩,
        ⟨Display.On, Cursor.Visible, CursorBlink.On⟩⟩,
        ⟨fun _ => true, 0, []⟩) 200).1 = Except.ok () :=
  (set_cursor_pos_spec _ 200 (by decide) rfl).1

/-- C6: `shift_cursor Right` sends 0b0001_0100, `shift_cursor Left` sends
0b0001_0000, `shift_display Right` sends 0b0001_1100, `shift_display Left`
sends 0b0001_1000; each call performs exactly one command send (one bus
write, followed by the settle delay). -/
theorem shift_commands_spec (st : St) (h : st.2.ok st.2.count = true) :
    ((shift_cursor st Direction.Right).2.2.events
        = st.2.events ++ [Event.write 0b00010100 false, Event.delayUs 100]) ∧
    ((shift_cursor st Direction.Left).2.2.events
        = st.2.events ++ [Event.write 0b00010000 false, Event.delayUs 100]) ∧
    ((shift_display st Direction.Right).2.2.events
        = st.2.events ++ [Event.write 0b00011100 false, Event.delayUs 100]) ∧
    ((shift_display st Direction.Left).2.2.events
        = st.2.events ++ [Event.write 0b00011000 false, Event.delayUs 100]) := by
  refine ⟨?_, ?_, ?_, ?_⟩ <;>
    simp [shift_cursor, shift_display, write_command, busWrite, delayUs,
      addEvent, h]

/-- C6 witness: the theorem applied on an all-success bus. -/
theorem shift_commands_spec_witness :
    (shift_cursor (⟨⟨false, CursorMode.Right⟩,
        ⟨Display.On, Cursor.Visible, CursorBlink.On⟩⟩,
        ⟨fun _ => true, 0, []⟩) Direction.Right).2.2.events
      = [Event.write 0b00010100 false, Event.delayUs 100] :=
  (shift_commands_spec _ rfl).1

/-- C7: every successful `write_command` and every successful `write_byte`
appends exactly its bus write followed by the fixed 100 us settle delay, so
the settle delay is the last event before the operation returns. -/
theorem settle_delay_spec (st : St) (b : Nat) :
    ((write_command st b).1 = Except.ok () →
      (write_command st b).2.2.events
        = st.2.events ++ [Event.write b false, Event.delayUs 100]) ∧
    ((write_byte st b).1 = Except.ok () →
      (write_byte st b).2.2.events
        = st.2.events ++ [Event.write b true, Event.delayUs 100]) := by
  by_cases hc : st.2.ok st.2.count = true <;>
    simp [write_command, write_byte, busWrite, delayUs, addEvent, hc]

/-- C7 witness: the theorem applied at command byte 1 on an all-success
bus. -/
theorem settle_delay_spec_witness :
    (write_command (⟨⟨false, CursorMode.Right⟩,
        ⟨Display.On, Cursor.Visible, CursorBlink.On⟩⟩,
        ⟨fun _ => true, 0, []⟩) 1).2.2.events
      = [Event.write 1 false, Event.delayUs 100] :=
  (settle_delay_spec _ 1).1 rfl

/-- C9: `clear`, `reset`, `set_cursor_pos`, `shift_cursor`, `shift_display`,
`write_byte`, `write_char`, `write_bytes` and `write_str` leave the stored
`entry_mode` and `display_mode` unchanged, whether they succeed or fail
(no hypothesis on the fault schedule). -/
theorem frame_ops_preserve_config (st : St) (p b : Nat) (dc dd : Direction)
    (c : Char) (bs : List Nat) (s : String) :
    (clear st).2.1 = st.1 ∧
    (reset st).2.1 = st.1 ∧
    (set_cursor_pos st p).2.1 = st.1 ∧
    (shift_cursor st dc).2.1 = st.1 ∧
    (shift_display st dd).2.1 = st.1 ∧
    (write_byte st b).2.1 = st.1 ∧
    (write_char st c).2.1 = st.1 ∧
    (write_bytes st bs).2.1 = st.1 ∧
    (write_str st s).2.1 = st.1 :=
  ⟨write_command_config st _, write_command_config st _,
   write_command_config st _, write_command_config st _,
   write_command_config st _, write_byte_config st _,
   write_byte_config st _, write_bytes_config bs st,
   write_bytes_config (strBytes s) st⟩

/-- C10: `write_char c` is exactly `write_byte` at the low 8 bits of the code
point (Rust's `as u8` cast), and on a success schedule it performs exactly
one data-register transmission of `c.toNat % 256` — no rejection of
characters above 255. -/
theorem write_char_spec (st : St) (c : Char) :
    write_char st c = write_byte st (c.toNat % 256) ∧
    (st.2.ok st.2.count = true →
      (write_char st c).1 = Except.ok () ∧
      (write_char st c).2.2.events
        = st.2.events ++ [Event.write (c.toNat % 256) true,
                          Event.delayUs 100]) := by
  refine ⟨rfl, fun h => ?_⟩
  simp [write_char, write_byte, busWrite, delayUs, addEvent, h]

/-- C10 witness: the theorem applied at a code point above 255
(U+0416, code point 1046, and 1046 % 256 = 22). -/
theorem write_char_spec_witness :
    (write_char (⟨⟨false, CursorMode.Right⟩,
        ⟨Display.On, Cursor.Visible, CursorBlink.On⟩⟩,
        ⟨fun _ => true, 0, []⟩) (Char.ofNat 1046)).2.2.events
      = [Event.write 22 true, Event.delayUs 100] := by
  have h := (write_char_spec (⟨⟨false, CursorMode.Right⟩,
      ⟨Display.On, Cursor.Visible, CursorBlink.On⟩⟩,
      ⟨fun _ => true, 0, []⟩) (Char.ofNat 1046)).2 rfl
  exact h.2.trans (by decide)

/-- C4: each single-field configuration mutator (`set_autoscroll`,
`set_cursor_visibility`, `set_display`, `set_cursor_blink`,
`set_cursor_mode`) changes exactly one field of the stored entry-mode or
display-mode state (a record update of that one field) and performs exactly
one command send whose byte is the encoding of the entire updated structure,
for every encoding function. -/
theorem mutator_full_byte_spec (entryEnc : EntryMode → Nat)
    (dispEnc : DisplayMode → Nat) (st : St) (en : Bool) (vis : Cursor)
    (d : Display) (bl : CursorBlink) (cm : CursorMode)
    (h : st.2.ok st.2.count = true) :
    ((set_autoscroll entryEnc st en).1 = Except.ok () ∧
     (set_autoscroll entryEnc st en).2.1
       = { st.1 with entry_mode :=
             { st.1.entry_mode with shift_mode := en } } ∧
     (set_autoscroll entryEnc st en).2.2.events
       = st.2.events ++
           [Event.write
              (entryEnc { st.1.entry_mode with shift_mode := en }) false,
            Event.delayUs 100]) ∧
    ((set_cursor_visibility dispEnc st vis).1 = Except.ok () ∧
     (set_cursor_visibility dispEnc st vis).2.1
       = { st.1 with display_mode :=
             { st.1.display_mode with cursor_visibility := vis } } ∧
     (set_cursor_visibility dispEnc st vis).2.2.events
       = st.2.events ++
           [Event.write
              (dispEnc { st.1.display_mode with cursor_visibility := vis })
              false,
            Event.delayUs 100]) ∧
    ((set_display dispEnc st d).1 = Except.ok () ∧
     (set_display dispEnc st d).2.1
       = { st.1 with display_mode :=
             { st.1.display_mode with display := d } } ∧
     (set_display dispEnc st d).2.2.events
       = st.2.events ++
           [Event.write
              (dispEnc { st.1.display_mode with display := d }) false,
            Event.delayUs 100]) ∧
    ((set_cursor_blink dispEnc st bl).1 = Except.ok () ∧
     (set_cursor_blink dispEnc st bl).2.1
       = { st.1 with display_mode :=
             { st.1.display_mode with cursor_blink := bl } } ∧
     (set_cursor_blink dispEnc st bl).2.2.events
       = st.2.events ++
           [Event.write
              (dispEnc { st.1.display_mode with cursor_blink := bl }) false,
            Event.delayUs 100]) ∧
    ((set_cursor_mode entryEnc st cm).1 = Except.ok () ∧
     (set_cursor_mode entryEnc st cm).2.1
       = { st.1 with entry_mode :=
             { st.1.entry_mode with cursor_mode := cm } } ∧
     (set_cursor_mode entryEnc st cm).2.2.events
       = st.2.events ++
           [Event.write
              (entryEnc { st.1.entry_mode with cursor_mode := cm }) false,
            Event.delayUs 100]) := by
  simp [set_autoscroll, set_cursor_visibility, set_display, set_cursor_blink,
    set_cursor_mode, write_command, busWrite, delayUs, addEvent, h]

/-- C4 witness: `set_cursor_blink` on an all-success bus with a concrete
encoder sends the encoding of the full updated display mode. -/
theorem mutator_full_byte_spec_witness :
    (set_cursor_blink (fun _ => 13)
        (⟨⟨false, CursorMode.Right⟩,
          ⟨Display.On, Cursor.Visible, CursorBlink.Off⟩⟩,
         ⟨fun _ => true, 0, []⟩) CursorBlink.On).2.2.events
      = [Event.write 13 false, Event.delayUs 100] :=
  (mutator_full_byte_spec (fun _ => 6) (fun _ => 13)
    (⟨⟨false, CursorMode.Right⟩,
      ⟨Display.On, Cursor.Visible, CursorBlink.Off⟩⟩,
     ⟨fun _ => true, 0, []⟩) false Cursor.Visible
    Display.On CursorBlink.On CursorMode.Right rfl).2.2.2.1.2.2

/-- C8: every configuration mutator (including `set_display_mode`) assigns
the stored state before transmitting; when the bus write fails, the call
returns the pin failure while the in-memory configuration already holds the
new value — no rollback. -/
theorem mutator_failure_keeps_new_config (entryEnc : EntryMode → Nat)
    (dispEnc : DisplayMode → Nat) (st : St) (dm : DisplayMode) (en : Bool)
    (vis : Cursor) (d : Display) (bl : CursorBlink) (cm : CursorMode)
    (hf : st.2.ok st.2.count = false) :
    ((set_autoscroll entryEnc st en).1 = Except.error Error.PinFailure ∧
     (set_autoscroll entryEnc st en).2.1
       = { st.1 with entry_mode :=
             { st.1.entry_mode with shift_mode := en } }) ∧
    ((set_cursor_visibility dispEnc st vis).1
        = Except.error Error.PinFailure ∧
     (set_cursor_visibility dispEnc st vis).2.1
       = { st.1 with display_mode :=
             { st.1.display_mode with cursor_visibility := vis } }) ∧
    ((set_display_mode dispEnc st dm).1 = Except.error Error.PinFailure ∧
     (set_display_mode dispEnc st dm).2.1
       = { st.1 with display_mode := dm }) ∧
    ((set_display dispEnc st d).1 = Except.error Error.PinFailure ∧
     (set_display dispEnc st d).2.1
       = { st.1 with display_mode :=
             { st.1.display_mode with display := d } }) ∧
    ((set_cursor_blink dispEnc st bl).1 = Except.error Error.PinFailure ∧
     (set_cursor_blink dispEnc st bl).2.1
       = { st.1 with display_mode :=
             { st.1.display_mode with cursor_blink := bl } }) ∧
    ((set_cursor_mode entryEnc st cm).1 = Except.error Error.PinFailure ∧
     (set_cursor_mode entryEnc st cm).2.1
       = { st.1 with entry_mode :=
             { st.1.entry_mode with cursor_mode := cm } }) := by
  simp [set_autoscroll, set_cursor_visibility, set_display_mode, set_display,
    set_cursor_blink, set_cursor_mode, write_command, busWrite, hf]

/-- C8 witness: `set_autoscroll true` on an always-failing bus returns the
pin failure with `shift_mode` already set to `true`. -/
theorem mutator_failure_keeps_new_config_witness :
    (set_autoscroll (fun _ => 6)
        (⟨⟨false, CursorMode.Right⟩,
          ⟨Display.On, Cursor.Visible, CursorBlink.On⟩⟩,
         ⟨fun _ => false, 0, []⟩) true).2.1.entry_mode.shift_mode = true := by
  have h := (mutator_failure_keeps_new_config (fun _ => 6) (fun _ => 13)
    (⟨⟨false, CursorMode.Right⟩,
      ⟨Display.On, Cursor.Visible, CursorBlink.On⟩⟩,
     ⟨fun _ => false, 0, []⟩)
    ⟨Display.Off, Cursor.Invisible, CursorBlink.Off⟩ true Cursor.Visible
    Display.On CursorBlink.On CursorMode.Right rfl).1.2
  rw [h]

/-- C1: on a success schedule, `init_8bit` (run by `new_8bit`) issues to the
bus, in order and with `is_data = false`, exactly the bytes 0x30, 0x38,
0x0E, 0x01, 0x07 followed by the encoded entry-mode byte, with a 15 ms
power-on wait before the first command, a 5 ms wait after the first, and a
100 us settle wait after each subsequent command. -/
theorem init_8bit_spec (entryEnc : EntryMode → Nat) (st : St)
    (h : ∀ k, st.2.ok k = true) :
    (init_8bit entryEnc st).1 = Except.ok () ∧
    (init_8bit entryEnc st).2.2.events
      = st.2.events ++
          [Event.delayMs 15,
           Event.write 0x30 false, Event.delayMs 5,
           Event.write 0x38 false, Event.delayUs 100,
           Event.write 0x0E false, Event.delayUs 100,
           Event.write 0x01 false, Event.delayUs 100,
           Event.write 0x07 false, Event.delayUs 100,
           Event.write (entryEnc st.1.entry_mode) false,
           Event.delayUs 100] := by
  simp [init_8bit, runInitSteps, initStep, busWrite, delayMs, delayUs,
    addEvent, h]

/-- C1 witness: the theorem applied on an all-success bus with a concrete
entry-mode encoder. -/
theorem init_8bit_spec_witness :
    (init_8bit (fun _ => 6)
        (⟨⟨false, CursorMode.Right⟩,
          ⟨Display.On, Cursor.Visible, CursorBlink.On⟩⟩,
         ⟨fun _ => true, 0, []⟩)).1 = Except.ok () :=
  (init_8bit_spec (fun _ => 6)
    (⟨⟨false, CursorMode.Right⟩,
      ⟨Display.On, Cursor.Visible, CursorBlink.On⟩⟩,
     ⟨fun _ => true, 0, []⟩) (fun _ => rfl)).1

/-- C2: on a success schedule, `init_4bit` (run by `new_4bit`) issues to the
bus, in order and with `is_data = false`, exactly the bytes 0x33, 0x32,
0x28, 0x0E, 0x01, then the encoded entry-mode byte, and a final 0x80, with a
15 ms power-on wait before the first byte, a 5 ms wait after the first, and
a 100 us settle wait after each subsequent byte. -/
theorem init_4bit_spec (entryEnc : EntryMode → Nat) (st : St)
    (h : ∀ k, st.2.ok k = true) :
    (init_4bit entryEnc st).1 = Except.ok () ∧
    (init_4bit entryEnc st).2.2.events
      = st.2.events ++
          [Event.delayMs 15,
           Event.write 0x33 false, Event.delayMs 5,
           Event.write 0x32 false, Event.delayUs 100,
           Event.write 0x28 false, Event.delayUs 100,
           Event.write 0x0E false, Event.delayUs 100,
           Event.write 0x01 false, Event.delayUs 100,
           Event.write (entryEnc st.1.entry_mode) false,
           Event.delayUs 100,
           Event.write 0x80 false, Event.delayUs 100] := by
  simp [init_4bit, runInitSteps, initStep, busWrite, delayMs, delayUs,
    addEvent, h]

/-- C2 witness: the theorem applied on an all-success bus with a concrete
entry-mode encoder. -/
theorem init_4bit_spec_witness :
    (init_4bit (fun _ => 6)
        (⟨⟨false, CursorMode.Right⟩,
          ⟨Display.On, Cursor.Visible, CursorBlink.On⟩⟩,
         ⟨fun _ => true, 0, []⟩)).1 = Except.ok () :=
  (init_4bit_spec (fun _ => 6)
    (⟨⟨false, CursorMode.Right⟩,
      ⟨Display.On, Cursor.Visible, CursorBlink.On⟩⟩,
     ⟨fun _ => true, 0, []⟩) (fun _ => rfl)).1

/-- C3: `write_bytes` transmits the bytes in input order to the data
register, one bus write per byte; when every write succeeds the trace gains
exactly the input bytes as data writes, and if the j-th write fails nothing
after byte j is sent and the failure is returned.  `write_str` is
`write_bytes` over the string's UTF-8 bytes, and `write_str "AB"` produces
exactly the data writes for 'A' then 'B'. -/
theorem write_bytes_write_str_spec :
    (∀ (bs : List Nat) (st : St),
      (∀ i, i < bs.length → st.2.ok (st.2.count + i) = true) →
        (write_bytes st bs).1 = Except.ok () ∧
        writesOf (write_bytes st bs).2.2.events
          = writesOf st.2.events ++ bs.map (fun b => (b, true))) ∧
    (∀ (bs : List Nat) (st : St) (j : Nat), j < bs.length →
      (∀ i, i < j → st.2.ok (st.2.count + i) = true) →
      st.2.ok (st.2.count + j) = false →
        (write_bytes st bs).1 = Except.error Error.PinFailure ∧
        writesOf (write_bytes st bs).2.2.events
          = writesOf st.2.events
              ++ (List.take j bs).map (fun b => (b, true))) ∧
    (∀ (st : St) (s : String), write_str st s = write_bytes st (strBytes s)) ∧
    (∀ st : St, (∀ k, st.2.ok k = true) →
      writesOf (write_str st "AB").2.2.events
        = writesOf st.2.events ++ [(65, true), (66, true)]) := by
  have hwrites : ∀ bs : List Nat, ∀ es : List Event,
      writesOf (es ++ dataEvents bs)
        = writesOf es ++ bs.map (fun b => (b, true)) := by
    intro bs
    induction bs with
    | nil => intro es; simp [dataEvents]
    | cons b rest ih =>
      intro es
      have h1 : es ++ dataEvents (b :: rest)
          = (es ++ [Event.write b true, Event.delayUs 100])
              ++ dataEvents rest := by
        simp [dataEvents]
      rw [h1, ih]
      have h2 : ∀ es' : List Event,
          writesOf (es' ++ [Event.write b true, Event.delayUs 100])
            = writesOf es' ++ [(b, true)] := by
        intro es'
        induction es' with
        | nil => simp [writesOf]
        | cons e rest' ih' => cases e <;> simp [writesOf, ih']
      rw [h2]
      simp
  refine ⟨?_, ?_, fun st s => rfl, ?_⟩
  · intro bs st h
    obtain ⟨h1, h2, -, -⟩ := write_bytes_ok_trace bs st h
    exact ⟨h1, by rw [h2, hwrites]⟩
  · intro bs st j hj hok hfail
    obtain ⟨h1, h2⟩ := write_bytes_fail_trace bs st j hj hok hfail
    exact ⟨h1, by rw [h2, hwrites]⟩
  · intro st h
    obtain ⟨-, h2, -, -⟩ := write_bytes_ok_trace (strBytes "AB") st
      (fun i _ => h _)
    show writesOf (write_bytes st (strBytes "AB")).2.2.events = _
    rw [h2, hwrites]
    have : strBytes "AB" = [65, 66] := by decide
    rw [this]
    simp

/-- C3 witness: the success branch of the theorem applied to two concrete
bytes on an all-success bus. -/
theorem write_bytes_write_str_spec_witness :
    (write_bytes (⟨⟨false, CursorMode.Right⟩,
        ⟨Display.On, Cursor.Visible, CursorBlink.On⟩⟩,
        ⟨fun _ => true, 0, []⟩) [65, 66]).1 = Except.ok () :=
  (write_bytes_write_str_spec.1 [65, 66]
    (⟨⟨false, CursorMode.Right⟩,
      ⟨Display.On, Cursor.Visible, CursorBlink.On⟩⟩,
     ⟨fun _ => true, 0, []⟩) (fun i _ => rfl)).1

end HD
